import Mathlib

/-!
# EG-Move: shallow embedding of the ephemeral file store

Embedding of the core of the EG-Move file-transfer service (src/test.py,
the fuller of the two source variants; src/main.py agrees on all the logic
used here).  Codes, filenames and paths are lists of characters; wall-clock
time (Python floats from time.time) is modelled by the rationals; the
float('inf') expiry sentinel is a dedicated constructor; the in-memory dict
FILE_DB is an association list; the storage directory is the list of blob
paths currently on disk.
-/

namespace EGMove

/-- Python strings, modelled character by character. -/
abbrev Str := List Char

/-- Python's str.upper, restricted to the characters that occur here. -/
def pyUpper (s : Str) : Str := s.map Char.toUpper

/-- Python's s.replace(c, "") for a single-character pattern: drop every
occurrence of that character. -/
def removeChar (c : Char) (s : Str) : Str := s.filter (fun x => x ≠ c)

/-- The alphabet generate_code samples from: string.ascii_uppercase +
string.digits. -/
def codeAlphabet : Str := ("ABCDEFGHIJKLMNOPQRSTUVWXYZ0123456789").toList

/-- The deterministic tail of generate_code: given the six sampled
characters, format them as XXX-XXX (f-string raw[:3]-raw[3:]). -/
def formatCode (raw : Str) : Str := raw.take 3 ++ '-' :: raw.drop 3

/-- The cleaning phase of normalize_code_input exactly as the source
computes it: replace("-","").replace(" ","").upper(). -/
def cleanSource (s : Str) : Str := pyUpper (removeChar ' ' (removeChar '-' s))

/-- The cleaning phase as the spec words it: strip the separator and
whitespace characters in one pass, then uppercase. -/
def cleanSpec (s : Str) : Str :=
  pyUpper (s.filter (fun c => ¬(c = '-' ∨ c = ' ')))

/-- normalize_code_input from the source: drop hyphens, then spaces,
uppercase, and re-insert the hyphen exactly when the cleaned input has
length 6. -/
def normalize_code_input (user_input : Str) : Str :=
  let clean := cleanSource user_input
  if clean.length = 6 then clean.take 3 ++ '-' :: clean.drop 3 else clean

/-- Python's int() truncation toward zero, on rationals. -/
def pyInt (q : ℚ) : Int := if 0 ≤ q then ⌊q⌋ else -⌊-q⌋

/-- An Entry's expires_at field: a concrete float deadline or the
float('inf') sentinel. -/
inductive PyExpiry where
  | fin (t : ℚ)
  | inf
  deriving DecidableEq, Repr

/-- One FILE_DB value: {"path": ..., "filename": ..., "size": ...,
"expires_at": ...}. -/
structure FileMeta where
  path : Str
  filename : Str
  size : Nat
  expires_at : PyExpiry
  deriving DecidableEq, Repr

/-- FILE_DB, as an association list from canonical code to metadata. -/
abbrev DB := List (Str × FileMeta)

/-- Dict lookup FILE_DB.get(code). -/
def dbLookup (k : Str) (db : DB) : Option FileMeta :=
  (db.find? (fun p => p.1 = k)).map Prod.snd

/-- Dict deletion del FILE_DB[code]. -/
def dbErase (k : Str) (db : DB) : DB := db.filter (fun p => p.1 ≠ k)

/-- Dict assignment FILE_DB[code] = meta (overwrites any previous binding:
this is exactly what the source's upload does, with no collision check). -/
def dbSet (k : Str) (v : FileMeta) (db : DB) : DB := (k, v) :: dbErase k db

/-- The whole mutable state: the in-memory FILE_DB plus the set of blob
paths present in the storage directory. -/
structure Sys where
  db : DB
  fs : List Str
  deriving DecidableEq, Repr

/-- os.remove(p): the path is gone afterwards. -/
def fsRemove (p : Str) (fs : List Str) : List Str := fs.filter (fun q => q ≠ p)

/-- Writing the blob for a fresh upload: the path exists afterwards. -/
def fsWrite (p : Str) (fs : List Str) : List Str := p :: fsRemove p fs

/-- cleanup_file from the source: if the code is present, remove the blob
at its path (a no-op if the file is already gone — os.path.exists guards
os.remove) and then delete the FILE_DB entry; if absent, do nothing. -/
def cleanup_file (code : Str) (st : Sys) : Sys :=
  match dbLookup code st.db with
  | none => st
  | some meta => { db := dbErase code st.db, fs := fsRemove meta.path st.fs }

/-- The duration whitelist check from upload_file:
`if duration not in [10, 15, 30]: duration = 10`. -/
def durationOk (d : Int) : Bool := d = 10 ∨ d = 15 ∨ d = 30

/-- The effective duration after the whitelist check. -/
def resolveDuration (d : Int) : Int := if durationOk d then d else 10

/-- The member of the enumerated duration set nearest to the request.
Modelled from the spec: the spec's "clamp to the nearest valid default"
reading, for comparison with what upload_file actually computes. -/
def nearestValidDuration (d : Int) : Int :=
  if (d - 10).natAbs ≤ (d - 15).natAbs ∧ (d - 10).natAbs ≤ (d - 30).natAbs then 10
  else if (d - 15).natAbs ≤ (d - 30).natAbs then 15 else 30

/-- The storage path upload_file builds:
os.path.join(STORAGE_DIR, f-string code-without-hyphen_filename). -/
def storage_path (code : Str) (filename : Str) : Str :=
  ("storage/").toList ++ removeChar '-' code ++ '_' :: filename

/-- The JSON body a successful upload returns (status "success" implicit). -/
structure UploadResult where
  code : Str
  filename : Str
  expires_in : Int
  deriving DecidableEq, Repr

/-- upload_file from the source, with the nondeterminism made explicit:
`now` is time.time() and `raw` is the six characters secrets.choice drew
inside generate_code; `size` is the byte count of the uploaded content.
The code is formatted, the blob is written to a path built from the code
and the client-supplied filename, and the FILE_DB slot for the code is
assigned — with no check whether the code was already live. -/
def upload_file (now : ℚ) (raw : Str) (filename : Str) (size : Nat)
    (dur : Int) (st : Sys) : UploadResult × Sys :=
  let duration := resolveDuration dur
  let code := formatCode raw
  let file_path := storage_path code filename
  let meta : FileMeta :=
    { path := file_path, filename := filename, size := size,
      expires_at := .fin (now + ((duration * 60 : Int) : ℚ)) }
  ({ code := code, filename := filename, expires_in := duration * 60 },
   { db := dbSet code meta st.db, fs := fsWrite file_path st.fs })

/-- The HTTP error outcomes of the read/delete paths. -/
inductive ApiError where
  | invalidCode
  | codeExpired
  | fileNotFound
  deriving DecidableEq, Repr

/-- Equality of handler outcomes is decidable, so the embedding can be
evaluated on concrete inputs. -/
instance {ε α : Type} [DecidableEq ε] [DecidableEq α] :
    DecidableEq (Except ε α) := fun x y =>
  match x, y with
  | .error a, .error b => decidable_of_iff (a = b) (by simp)
  | .error _, .ok _ => isFalse (by simp)
  | .ok _, .error _ => isFalse (by simp)
  | .ok a, .ok b => decidable_of_iff (a = b) (by simp)

/-- The JSON body get_file_info returns on success. -/
structure InfoResult where
  valid : Bool
  filename : Str
  size : Nat
  expires_in_seconds : Int
  deriving DecidableEq, Repr

/-- get_file_info from the source: normalize the code, 404 if absent;
infinite expiry reports -1; a finite deadline with remaining <= 0 evicts
and 404s; otherwise report int(remaining). -/
def get_file_info (now : ℚ) (input : Str) (st : Sys) :
    Except ApiError InfoResult × Sys :=
  let code := normalize_code_input input
  match dbLookup code st.db with
  | none => (.error .invalidCode, st)
  | some meta =>
    match meta.expires_at with
    | .inf =>
      (.ok { valid := true, filename := meta.filename, size := meta.size,
             expires_in_seconds := -1 }, st)
    | .fin t =>
      let remaining := t - now
      if remaining ≤ 0 then (.error .codeExpired, cleanup_file code st)
      else
        (.ok { valid := true, filename := meta.filename, size := meta.size,
               expires_in_seconds := pyInt remaining }, st)

/-- The expiry test download_file applies:
meta["expires_at"] != float('inf') and time.time() > meta["expires_at"]. -/
def downloadExpired (e : PyExpiry) (now : ℚ) : Bool :=
  match e with
  | .inf => false
  | .fin t => now > t

/-- What a successful download hands to StreamingResponse: which blob is
opened and the filename placed in the Content-Disposition header. -/
structure DownloadResult where
  path : Str
  filename : Str
  deriving DecidableEq, Repr

/-- download_file from the source: normalize the code, 404 if absent;
evict and 404 when the deadline is finite and strictly in the past;
otherwise stream the blob. -/
def download_file (now : ℚ) (input : Str) (st : Sys) :
    Except ApiError DownloadResult × Sys :=
  let code := normalize_code_input input
  match dbLookup code st.db with
  | none => (.error .invalidCode, st)
  | some meta =>
    if downloadExpired meta.expires_at now
    then (.error .codeExpired, cleanup_file code st)
    else (.ok { path := meta.path, filename := meta.filename }, st)

/-- The JSON body admin_delete returns; the source returns it
unconditionally (for an authenticated admin). -/
structure DeleteResult where
  status : Str
  code : Str
  deriving DecidableEq, Repr

/-- admin_delete from the source (authentication, an external concern, is
assumed to have passed): cleanup_file on the raw code, then always the
success body — there is no absent-code branch. -/
def admin_delete (code : Str) (st : Sys) : DeleteResult × Sys :=
  ({ status := ("deleted").toList, code := code }, cleanup_file code st)

/-- The outcome admin_toggle_expiry reports. -/
inductive ToggleOutcome where
  | timed
  | infiniteMode
  | fileNotFound
  deriving DecidableEq, Repr

/-- admin_toggle_expiry from the source: an infinite entry becomes timed
with deadline time.time() + 600; a timed entry becomes infinite; an absent
code 404s. -/
def admin_toggle_expiry (now : ℚ) (code : Str) (st : Sys) :
    ToggleOutcome × Sys :=
  match dbLookup code st.db with
  | none => (.fileNotFound, st)
  | some meta =>
    match meta.expires_at with
    | .inf =>
      (.timed,
       { st with db := dbSet code { meta with expires_at := .fin (now + 600) } st.db })
    | .fin _ =>
      (.infiniteMode,
       { st with db := dbSet code { meta with expires_at := .inf } st.db })

/-! ## Concrete fixtures used by witnesses and counterexamples -/

/-- The empty system: no entries, no blobs. -/
def emptySys : Sys := { db := [], fs := [] }

/-- A timed entry, deadline 100. -/
def metaTimed : FileMeta :=
  { path := ("storage/AAAAAA_a.txt").toList, filename := ("a.txt").toList,
    size := 3, expires_at := .fin 100 }

/-- A store holding metaTimed under code AAA-AAA, blob present. -/
def stTimed : Sys :=
  { db := [(("AAA-AAA").toList, metaTimed)], fs := [metaTimed.path] }

/-- A store holding metaTimed under code AAA-AAA whose blob is already
gone from disk. -/
def stNoBlob : Sys := { db := [(("AAA-AAA").toList, metaTimed)], fs := [] }

/-- An entry with the infinite-expiry sentinel. -/
def metaInf : FileMeta :=
  { path := ("storage/BBB222_b.txt").toList, filename := ("b.txt").toList,
    size := 5, expires_at := .inf }

/-- A store holding metaInf under code BBB-222. -/
def stInf : Sys :=
  { db := [(("BBB-222").toList, metaInf)], fs := [metaInf.path] }

/-- The entry already live under AAA-AAA before the colliding upload. -/
def metaOld : FileMeta :=
  { path := ("storage/AAAAAA_old.txt").toList, filename := ("old.txt").toList,
    size := 1, expires_at := .fin 1000 }

/-- A store in which the code AAA-AAA is already live. -/
def stCollision : Sys :=
  { db := [(("AAA-AAA").toList, metaOld)], fs := [metaOld.path] }

/-! ## Basic store lemmas -/

theorem dbLookup_dbErase_self (k : Str) (db : DB) :
    dbLookup k (dbErase k db) = none := by
  simp [dbLookup, dbErase, List.find?_eq_none]

theorem dbLookup_dbSet_self (k : Str) (v : FileMeta) (db : DB) :
    dbLookup k (dbSet k v db) = some v := by
  simp [dbLookup, dbSet, List.find?]

theorem dbLookup_cleanup_self (code : Str) (st : Sys) :
    dbLookup code (cleanup_file code st).db = none := by
  unfold cleanup_file
  cases h : dbLookup code st.db with
  | none => simp [h]
  | some meta => simpa using dbLookup_dbErase_self code st.db

theorem not_mem_fsRemove_self (p : Str) (fs : List Str) :
    p ∉ fsRemove p fs := by
  simp [fsRemove]

theorem fsRemove_of_not_mem (p : Str) (fs : List Str) (h : p ∉ fs) :
    fsRemove p fs = fs := by
  apply List.filter_eq_self.mpr
  intro q hq
  simp only [decide_eq_true_eq]
  intro hqp
  exact h (hqp ▸ hq)

/-! ## Claim theorems -/

/-- C1. The spec requires upload to detect a live code and regenerate
rather than overwrite, and the claim asserts the operation does so.  The
source has no such check: when generate_code returns a code that is
already live, the dict assignment silently replaces the existing Entry.
Evaluated at the failing input: AAA-AAA is live with metaOld, the upload
draws the colliding raw characters AAAAAA, and afterwards the code's
entry carries the new upload's filename and blob path — the old Entry's
metadata is gone. -/
theorem C1_upload_overwrites_on_collision :
    dbLookup (("AAA-AAA").toList) stCollision.db = some metaOld
    ∧ (upload_file 0 (("AAAAAA").toList) (("new.txt").toList) 2 10 stCollision).1.code
        = ("AAA-AAA").toList
    ∧ (dbLookup (("AAA-AAA").toList)
         ((upload_file 0 (("AAAAAA").toList) (("new.txt").toList) 2 10 stCollision).2).db).map
         FileMeta.filename = some (("new.txt").toList)
    ∧ (dbLookup (("AAA-AAA").toList)
         ((upload_file 0 (("AAAAAA").toList) (("new.txt").toList) 2 10 stCollision).2).db).map
         FileMeta.path = some (("storage/AAAAAA_new.txt").toList)
    ∧ metaOld.filename ≠ ("new.txt").toList
    ∧ metaOld.path ≠ ("storage/AAAAAA_new.txt").toList := by
  refine ⟨by decide, by decide, by decide, by decide, by decide, by decide⟩

/-- C2. The claim (and the spec) say the blob path is derived from the
code plus an opaque disambiguator only, never from the client filename.
The source builds the path as storage/{code without hyphen}_{filename}:
the filename is embedded verbatim, so two uploads with the same generated
code and different filenames land on different paths, and a crafted
filename steers the path (e.g. a ../ segment survives into it). -/
theorem C2_storage_path_uses_filename :
    (upload_file 0 (("ABC123").toList) (("a.txt").toList) 1 10 emptySys).1.code
      = (upload_file 0 (("ABC123").toList) (("b.txt").toList) 1 10 emptySys).1.code
    ∧ (dbLookup (("ABC-123").toList)
         ((upload_file 0 (("ABC123").toList) (("a.txt").toList) 1 10 emptySys).2).db).map
         FileMeta.path = some (("storage/ABC123_a.txt").toList)
    ∧ (dbLookup (("ABC-123").toList)
         ((upload_file 0 (("ABC123").toList) (("b.txt").toList) 1 10 emptySys).2).db).map
         FileMeta.path = some (("storage/ABC123_b.txt").toList)
    ∧ (("storage/ABC123_a.txt").toList : Str) ≠ ("storage/ABC123_b.txt").toList
    ∧ storage_path (("ABC-123").toList) (("../evil").toList)
        = ("storage/ABC123_../evil").toList := by
  refine ⟨by decide, by decide, by decide, by decide, by decide⟩

/-- C4 counterexample. The claim says deleting an absent code returns
NotFound.  admin_delete runs cleanup_file and then unconditionally
returns the success body: on the empty store (AAA-AAA absent) it answers
exactly the same "deleted" response it gives for a live code, so no
NotFound is ever reported. -/
theorem C4_delete_absent_reports_success :
    dbLookup (("AAA-AAA").toList) emptySys.db = none
    ∧ (admin_delete (("AAA-AAA").toList) emptySys).1
        = { status := ("deleted").toList, code := ("AAA-AAA").toList }
    ∧ (admin_delete (("AAA-AAA").toList) emptySys).1
        = (admin_delete (("AAA-AAA").toList) stTimed).1 := by
  refine ⟨by decide, by decide, by decide⟩

/-- C4 amended. admin_delete always answers the success body "deleted"
(also for an absent code, where it is a no-op); for any code (in
canonical form) it removes the entry, so a subsequent getInfo reports
NotFound (invalid code). -/
theorem C4_delete_removes_entry (st : Sys) (code : Str) (now : ℚ)
    (hn : normalize_code_input code = code) :
    (admin_delete code st).1.status = ("deleted").toList
    ∧ dbLookup code ((admin_delete code st).2).db = none
    ∧ (get_file_info now code ((admin_delete code st).2)).1
        = .error .invalidCode := by
  refine ⟨rfl, dbLookup_cleanup_self code st, ?_⟩
  simp only [admin_delete, get_file_info, hn, dbLookup_cleanup_self]

/-- C4 witness: deleting the live code AAA-AAA removes it and a
subsequent getInfo reports the NotFound-style invalid-code error. -/
theorem C4_delete_removes_entry_witness :
    (admin_delete (("AAA-AAA").toList) stTimed).1.status = ("deleted").toList
    ∧ dbLookup (("AAA-AAA").toList)
        ((admin_delete (("AAA-AAA").toList) stTimed).2).db = none
    ∧ (get_file_info 0 (("AAA-AAA").toList)
        ((admin_delete (("AAA-AAA").toList) stTimed).2)).1
        = .error .invalidCode :=
  C4_delete_removes_entry stTimed (("AAA-AAA").toList) 0 (by decide)

/-- C5. cleanup_file evicts blob and metadata together and is idempotent:
after it runs, the code is absent from FILE_DB and its blob path is gone
from storage (no partially evicted state survives the call); a second
eviction attempt observes the code absent and is a no-op; and when the
blob is already gone from disk the call still completes, removing the
metadata and leaving storage untouched rather than failing. -/
theorem C5_cleanup_total_eviction_idempotent (st : Sys) (code : Str) :
    dbLookup code (cleanup_file code st).db = none
    ∧ (∀ meta, dbLookup code st.db = some meta →
         meta.path ∉ (cleanup_file code st).fs)
    ∧ cleanup_file code (cleanup_file code st) = cleanup_file code st
    ∧ (∀ meta, dbLookup code st.db = some meta → meta.path ∉ st.fs →
         (cleanup_file code st).fs = st.fs) := by
  refine ⟨dbLookup_cleanup_self code st, ?_, ?_, ?_⟩
  · intro meta h
    unfold cleanup_file
    rw [h]
    exact not_mem_fsRemove_self _ _
  · cases h0 : dbLookup code st.db with
    | none => simp [cleanup_file, h0]
    | some meta => simp [cleanup_file, h0, dbLookup_dbErase_self]
  · intro meta h hnot
    unfold cleanup_file
    rw [h]
    exact fsRemove_of_not_mem _ _ hnot

/-- C5 witness: evicting AAA-AAA from the concrete store removes both the
entry and its blob, a second eviction is a no-op, and eviction with the
blob already missing from disk leaves storage unchanged. -/
theorem C5_cleanup_witness :
    dbLookup (("AAA-AAA").toList) (cleanup_file (("AAA-AAA").toList) stTimed).db = none
    ∧ metaTimed.path ∉ (cleanup_file (("AAA-AAA").toList) stTimed).fs
    ∧ cleanup_file (("AAA-AAA").toList) (cleanup_file (("AAA-AAA").toList) stTimed)
        = cleanup_file (("AAA-AAA").toList) stTimed
    ∧ (cleanup_file (("AAA-AAA").toList) stNoBlob).fs = stNoBlob.fs :=
  ⟨(C5_cleanup_total_eviction_idempotent stTimed (("AAA-AAA").toList)).1,
   (C5_cleanup_total_eviction_idempotent stTimed (("AAA-AAA").toList)).2.1
     metaTimed (by decide),
   (C5_cleanup_total_eviction_idempotent stTimed (("AAA-AAA").toList)).2.2.1,
   (C5_cleanup_total_eviction_idempotent stNoBlob (("AAA-AAA").toList)).2.2.2
     metaTimed (by decide) (by decide)⟩

theorem cleanSource_eq_cleanSpec (s : Str) : cleanSource s = cleanSpec s := by
  unfold cleanSource cleanSpec removeChar pyUpper
  rw [List.filter_filter]
  congr 1
  apply List.filter_congr
  intro x _
  by_cases h1 : x = '-' <;> by_cases h2 : x = ' ' <;> simp [h1, h2]

theorem codeAlphabet_props :
    ∀ c ∈ codeAlphabet, (¬c = '-' ∧ ¬c = ' ') ∧ c.toUpper = c := by decide

theorem map_id_of_mem {f : Char → Char} (l : Str) (h : ∀ c ∈ l, f c = c) :
    l.map f = l := by
  induction l with
  | nil => rfl
  | cons a t ih =>
    simp only [List.map_cons, h a (by simp)]
    rw [ih fun c hc => h c (by simp [hc])]

theorem filter_ne_eq_self_of_mem (c : Char) (l raw : Str)
    (hsub : ∀ x ∈ l, x ∈ raw) (hraw : ∀ x ∈ raw, ¬x = c) :
    List.filter (fun x => x ≠ c) l = l := by
  apply List.filter_eq_self.mpr
  intro a ha
  simpa using hraw a (hsub a ha)

/-- C7. normalize_code_input strips the separator and space characters
and uppercases; it re-inserts the canonical hyphen exactly when the
cleaned input has length 6, and passes any other cleaned length through
unchanged.  The source's sequential replace("-","").replace(" ","")
agrees with the one-pass strip the spec describes, and the spec's
concrete examples hold: abc123, ABC-123 and abc 123 all normalize to
ABC-123. -/
theorem C7_normalize_strips_and_reinserts :
    (∀ s : Str,
       normalize_code_input s =
         if (cleanSpec s).length = 6
         then (cleanSpec s).take 3 ++ '-' :: (cleanSpec s).drop 3
         else cleanSpec s)
    ∧ normalize_code_input (("abc123").toList)
        = normalize_code_input (("ABC-123").toList)
    ∧ normalize_code_input (("ABC-123").toList)
        = normalize_code_input (("abc 123").toList)
    ∧ normalize_code_input (("abc123").toList) = ("ABC-123").toList := by
  refine ⟨fun s => ?_, by decide, by decide, by decide⟩
  simp only [normalize_code_input, cleanSource_eq_cleanSpec]

/-- C8. Every code generate_code can produce — six characters drawn from
the uppercase-alphanumeric alphabet, formatted as XXX-XXX — is a fixed
point of normalize_code_input: the returned code normalizes to itself. -/
theorem C8_generated_code_is_normalize_fixed_point (raw : Str)
    (h6 : raw.length = 6) (hAl : ∀ c ∈ raw, c ∈ codeAlphabet) :
    normalize_code_input (formatCode raw) = formatCode raw := by
  have hprops : ∀ c ∈ raw, (¬c = '-' ∧ ¬c = ' ') ∧ c.toUpper = c :=
    fun c hc => codeAlphabet_props c (hAl c hc)
  have h1 : removeChar '-' (formatCode raw) = raw := by
    unfold removeChar formatCode
    rw [List.filter_append]
    rw [filter_ne_eq_self_of_mem '-' (raw.take 3) raw
         (fun x hx => List.take_subset 3 raw hx) (fun x hx => (hprops x hx).1.1)]
    simp only [List.filter_cons, decide_eq_true_eq]
    rw [if_neg (by simp)]
    rw [filter_ne_eq_self_of_mem '-' (raw.drop 3) raw
         (fun x hx => List.drop_subset 3 raw hx) (fun x hx => (hprops x hx).1.1)]
    exact List.take_append_drop 3 raw
  have h2 : removeChar ' ' raw = raw := by
    unfold removeChar
    exact filter_ne_eq_self_of_mem ' ' raw raw (fun x hx => hx)
      (fun x hx => (hprops x hx).1.2)
  have h3 : pyUpper raw = raw :=
    map_id_of_mem raw (fun c hc => (hprops c hc).2)
  unfold normalize_code_input cleanSource
  rw [h1, h2, h3]
  simp only [h6, if_pos rfl]
  rfl

/-- C8 witness: the concrete generated code A7B-9X2 normalizes to
itself. -/
theorem C8_generated_code_witness :
    normalize_code_input (formatCode (("A7B9X2").toList))
      = formatCode (("A7B9X2").toList) :=
  C8_generated_code_is_normalize_fixed_point (("A7B9X2").toList)
    (by decide) (by decide)

/-- C3. When a code's Entry carries a concrete deadline strictly in the
past at call time, both read paths evict the Entry and report the
expired-code error: get_file_info (remaining <= 0) and download_file
(now > deadline) each answer NotFound and the code is gone from FILE_DB
afterwards, so an expired Entry is never served as valid. -/
theorem C3_expired_entry_evicted_on_read (now t : ℚ) (input : Str) (st : Sys)
    (meta : FileMeta)
    (hl : dbLookup (normalize_code_input input) st.db = some meta)
    (he : meta.expires_at = .fin t) (hpast : t < now) :
    (get_file_info now input st).1 = .error .codeExpired
    ∧ dbLookup (normalize_code_input input) ((get_file_info now input st).2).db = none
    ∧ (download_file now input st).1 = .error .codeExpired
    ∧ dbLookup (normalize_code_input input) ((download_file now input st).2).db
        = none := by
  have hrem : t - now ≤ 0 := by linarith
  have hdl : downloadExpired meta.expires_at now = true := by
    simp [downloadExpired, he, hpast]
  refine ⟨?_, ?_, ?_, ?_⟩
  · simp [get_file_info, hl, he, hrem]
  · simp [get_file_info, hl, he, hrem, dbLookup_cleanup_self]
  · simp [download_file, hl, hdl]
  · simp [download_file, hl, hdl, dbLookup_cleanup_self]

/-- C3 witness: at time 200, the entry under AAA-AAA (deadline 100) is
evicted and reported expired by both getInfo and download. -/
theorem C3_expired_entry_witness :
    (get_file_info 200 (("AAA-AAA").toList) stTimed).1 = .error .codeExpired
    ∧ dbLookup (normalize_code_input (("AAA-AAA").toList))
        ((get_file_info 200 (("AAA-AAA").toList) stTimed).2).db = none
    ∧ (download_file 200 (("AAA-AAA").toList) stTimed).1 = .error .codeExpired
    ∧ dbLookup (normalize_code_input (("AAA-AAA").toList))
        ((download_file 200 (("AAA-AAA").toList) stTimed).2).db = none :=
  C3_expired_entry_evicted_on_read 200 100 (("AAA-AAA").toList) stTimed metaTimed
    (by decide) (by decide) (by decide)

/-- C10. At the exact deadline instant the two read paths disagree:
get_file_info tests remaining <= 0, so an entry whose deadline equals the
current time is evicted and reported expired, while download_file tests
strictly now > deadline, so the very same store state at the very same
instant still serves the stream and leaves the state untouched. -/
theorem C10_boundary_info_expires_download_serves (now : ℚ) (st : Sys)
    (code : Str) (meta : FileMeta)
    (hn : normalize_code_input code = code)
    (hl : dbLookup code st.db = some meta)
    (he : meta.expires_at = .fin now) :
    (get_file_info now code st).1 = .error .codeExpired
    ∧ dbLookup code ((get_file_info now code st).2).db = none
    ∧ (download_file now code st).1
        = .ok { path := meta.path, filename := meta.filename }
    ∧ (download_file now code st).2 = st := by
  have hrem : now - now ≤ 0 := by simp
  have hdl : downloadExpired meta.expires_at now = false := by
    simp [downloadExpired, he]
  refine ⟨?_, ?_, ?_, ?_⟩
  · simp [get_file_info, hn, hl, he, hrem]
  · simp [get_file_info, hn, hl, he, hrem, dbLookup_cleanup_self]
  · simp [download_file, hn, hl, hdl]
  · simp [download_file, hn, hl, hdl]

/-- C10 witness: at time 100, exactly the deadline of the entry under
AAA-AAA, getInfo evicts and reports expired while download still serves
the blob. -/
theorem C10_boundary_witness :
    (get_file_info 100 (("AAA-AAA").toList) stTimed).1 = .error .codeExpired
    ∧ dbLookup (("AAA-AAA").toList)
        ((get_file_info 100 (("AAA-AAA").toList) stTimed).2).db = none
    ∧ (download_file 100 (("AAA-AAA").toList) stTimed).1
        = .ok { path := metaTimed.path, filename := metaTimed.filename }
    ∧ (download_file 100 (("AAA-AAA").toList) stTimed).2 = stTimed :=
  C10_boundary_info_expires_download_serves 100 stTimed (("AAA-AAA").toList)
    metaTimed (by decide) (by decide) (by decide)

/-- C6. Toggling expiry on an infinite Entry makes it timed with the
fresh deadline now + 600 (the default ten-minute window) and reports
"timed"; toggling again restores the infinite sentinel; and whenever
get_file_info answers at all, it reports expires_in_seconds = -1 exactly
when the Entry's expiry is infinite, and a non-negative integer
otherwise. -/
theorem C6_toggle_flips_and_info_reports_sentinel (now now2 : ℚ) (st : Sys)
    (code : Str) (meta : FileMeta) (hl : dbLookup code st.db = some meta) :
    (meta.expires_at = .inf →
       (admin_toggle_expiry now code st).1 = .timed
       ∧ dbLookup code ((admin_toggle_expiry now code st).2).db
           = some { meta with expires_at := .fin (now + 600) }
       ∧ (admin_toggle_expiry now2 code ((admin_toggle_expiry now code st).2)).1
           = .infiniteMode
       ∧ dbLookup code
           ((admin_toggle_expiry now2 code
              ((admin_toggle_expiry now code st).2)).2).db
           = some { meta with expires_at := .inf })
    ∧ (normalize_code_input code = code →
       ∀ info, (get_file_info now code st).1 = .ok info →
         (info.expires_in_seconds = -1 ↔ meta.expires_at = .inf)
         ∧ (meta.expires_at ≠ .inf → 0 ≤ info.expires_in_seconds)) := by
  constructor
  · intro hinf
    refine ⟨?_, ?_, ?_, ?_⟩
    · simp [admin_toggle_expiry, hl, hinf]
    · simp [admin_toggle_expiry, hl, hinf, dbLookup_dbSet_self]
    · simp [admin_toggle_expiry, hl, hinf, dbLookup_dbSet_self]
    · simp [admin_toggle_expiry, hl, hinf, dbLookup_dbSet_self]
  · intro hn info hok
    cases hexp : meta.expires_at with
    | inf =>
      simp only [get_file_info, hn, hl, hexp] at hok
      rw [Except.ok.injEq] at hok
      subst hok
      simp [hexp]
    | fin t =>
      by_cases hle : t - now ≤ 0
      · simp [get_file_info, hn, hl, hexp, hle] at hok
      · simp only [get_file_info, hn, hl, hexp, if_neg hle] at hok
        rw [Except.ok.injEq] at hok
        subst hok
        have hpos : (0 : ℚ) ≤ t - now := le_of_lt (lt_of_not_le hle)
        have h0 : 0 ≤ pyInt (t - now) := by
          unfold pyInt
          rw [if_pos hpos]
          exact Int.floor_nonneg.mpr hpos
        refine ⟨?_, fun _ => h0⟩
        simp only [hexp]
        constructor
        · intro hneg
          rw [hneg] at h0
          exact absurd h0 (by decide)
        · intro hcontra
          exact absurd hcontra (by simp)

/-- C6 witness: toggling the infinite entry under BBB-222 at time 0
reports "timed", a second toggle reports "infinite", and getInfo on the
infinite entry reports -1 exactly because its expiry is infinite. -/
theorem C6_toggle_witness :
    (admin_toggle_expiry 0 (("BBB-222").toList) stInf).1 = .timed
    ∧ (admin_toggle_expiry 7 (("BBB-222").toList)
        ((admin_toggle_expiry 0 (("BBB-222").toList) stInf).2)).1 = .infiniteMode
    ∧ (({ valid := true, filename := ("b.txt").toList, size := 5,
          expires_in_seconds := -1 } : InfoResult).expires_in_seconds = -1
        ↔ metaInf.expires_at = .inf) :=
  ⟨((C6_toggle_flips_and_info_reports_sentinel 0 7 stInf (("BBB-222").toList)
      metaInf (by decide)).1 (by decide)).1,
   ((C6_toggle_flips_and_info_reports_sentinel 0 7 stInf (("BBB-222").toList)
      metaInf (by decide)).1 (by decide)).2.2.1,
   (((C6_toggle_flips_and_info_reports_sentinel 0 7 stInf (("BBB-222").toList)
      metaInf (by decide)).2 (by decide))
     { valid := true, filename := ("b.txt").toList, size := 5,
       expires_in_seconds := -1 } (by decide)).1⟩

/-- C9 counterexample. The claim reads "clamp to the nearest valid
default": for the out-of-set request 29 minutes the nearest member of
{10, 15, 30} is 30, but upload_file resets every out-of-set request to
10 minutes, answering expires_in 600 rather than 1800. -/
theorem C9_out_of_set_not_nearest :
    resolveDuration 29 ≠ nearestValidDuration 29
    ∧ nearestValidDuration 29 = 30
    ∧ (upload_file 0 (("ABC123").toList) (("f.txt").toList) 1 29 emptySys).1.expires_in
        = 600 := by
  refine ⟨by decide, by decide, by decide⟩

/-- C9 amended. Uploads with a requested retention outside {10, 15, 30}
minutes are silently reset to the 10-minute default (not the nearest
member) rather than rejected; the returned expires_in is always one of
600, 900 or 1800 seconds, and the stored deadline is now + expires_in. -/
theorem C9_duration_clamped_to_default (now : ℚ) (raw filename : Str)
    (size : Nat) (d : Int) (st : Sys) :
    ((upload_file now raw filename size d st).1.expires_in = 600
     ∨ (upload_file now raw filename size d st).1.expires_in = 900
     ∨ (upload_file now raw filename size d st).1.expires_in = 1800)
    ∧ (¬(d = 10 ∨ d = 15 ∨ d = 30) →
        (upload_file now raw filename size d st).1.expires_in = 600)
    ∧ dbLookup (formatCode raw) ((upload_file now raw filename size d st).2).db
        = some { path := storage_path (formatCode raw) filename,
                 filename := filename, size := size,
                 expires_at := .fin (now +
                   (((upload_file now raw filename size d st).1.expires_in : Int) : ℚ)) } := by
  refine ⟨?_, ?_, ?_⟩
  · by_cases h : d = 10 ∨ d = 15 ∨ d = 30
    · have h10 : resolveDuration 10 = 10 := by decide
      have h15 : resolveDuration 15 = 15 := by decide
      have h30 : resolveDuration 30 = 30 := by decide
      rcases h with h | h | h <;> subst h <;>
        simp [upload_file, h10, h15, h30]
    · have hdo : durationOk d = false := by
        unfold durationOk
        exact decide_eq_false h
      simp [upload_file, resolveDuration, hdo]
  · intro h
    have hdo : durationOk d = false := by
      unfold durationOk
      exact decide_eq_false h
    simp [upload_file, resolveDuration, hdo]
  · simp only [upload_file]
    rw [dbLookup_dbSet_self]

/-- C9 witness: a requested retention of 29 minutes (outside the set) is
reset to the default and answered with expires_in 600. -/
theorem C9_duration_witness :
    (upload_file 5 (("XYZ789").toList) (("f.txt").toList) 4 29 emptySys).1.expires_in
      = 600 :=
  (C9_duration_clamped_to_default 5 (("XYZ789").toList) (("f.txt").toList) 4 29
    emptySys).2.1 (by decide)

end EGMove
